import Mathlib

/-!
Verification of the connection pool in `pymongo/pool.py` (shallow embedding).

Conventions of the embedding:
* Times from `time.monotonic()` are modelled as natural-number seconds
  (`now`); `idle_time_seconds` becomes `now - last_checkin_time`.
* Python's unbounded signed counters (`requests`, `active_sockets`,
  `waiters`, `_pending`, `operation_count`) are modelled as `Int`.
* `max_pool_size`, `max_waiters`, `max_idle_time_seconds`,
  `_check_interval_seconds` and `wait_queue_timeout` may be `None` /
  `float(inf)` in the source and are modelled as `Option Nat`.
* Side effects that the claims mention (CMAP events, condition-variable
  notifications) are collected in an explicit `Effect` trace, in program
  order.
* External collaborators (the dialer/handshake, `socket_checker`,
  authentication, clock, condition-variable wakeups) are modelled as
  explicit environment inputs, since they are outside `pool.py`.
-/

namespace PyMongoPool

/-- The three pool states of `PoolState` (pool.py 1022-1025). -/
inductive PState
  | PAUSED
  | READY
  | CLOSED
deriving DecidableEq, Repr

/-- Connection close reasons from `ConnectionClosedReason` used in pool.py. -/
inductive CloseReason
  | STALE
  | IDLE
  | ERROR
  | POOL_CLOSED
deriving DecidableEq, Repr

/-- Checkout failure reasons from `ConnectionCheckOutFailedReason`. -/
inductive CheckOutFailedReason
  | POOL_CLOSED
  | CONN_ERROR
  | TIMEOUT
deriving DecidableEq, Repr

/-- CMAP monitoring events published by pool.py. -/
inductive CMAPEvent
  | PoolReady
  | PoolCleared
  | PoolClosed
  | ConnectionCreated (id : Nat)
  | ConnectionReady (id : Nat)
  | ConnectionClosed (id : Nat) (reason : CloseReason)
  | CheckOutStarted
  | CheckedOut (id : Nat)
  | CheckOutFailed (reason : CheckOutFailedReason)
  | CheckedIn (id : Nat)
deriving DecidableEq, Repr

/-- Observable side effects of a pool operation, in program order: a CMAP
event publication, or a notification on one of the two condition
variables (`size_cond` is the admission CV, `_max_connecting_cond` is the
creation-throttle CV). -/
inductive Effect
  | event (e : CMAPEvent)
  | notifySize
  | notifyAllSize
  | notifyMaxConn
  | notifyAllMaxConn
deriving DecidableEq, Repr

/-- The pool-relevant fields of `SocketInfo` (pool.py 488-533).  Fields that
only matter to the wire protocol are omitted. -/
structure SocketInfo where
  id : Nat
  generation : Nat
  closed : Bool
  last_checkin_time : Nat
  is_writable : Option Bool
  ready : Bool
  max_bson_size : Option Nat
deriving DecidableEq, Repr

/-- Default `maxBsonSize` (`common.MAX_BSON_SIZE`, 16 MiB), used to
initialize `SocketInfo.max_bson_size` before the handshake. -/
def MAX_BSON_SIZE : Nat := 16777216

/-- Options and configuration constants read by the pool.  Mirrors the
fields of `PoolOptions` that pool.py consults plus the derived values
computed in `Pool.__init__` (pool.py 1031-1095): `max_waiters` is
`max_pool_size * wait_queue_multiple` or infinite, `check_interval_seconds`
is the pool attribute `_check_interval_seconds` (default 1). -/
structure PoolOpts where
  max_pool_size : Option Nat
  min_pool_size : Nat
  max_connecting : Nat
  max_idle_time_seconds : Option Nat
  wait_queue_timeout : Option Nat
  max_waiters : Option Nat
  check_interval_seconds : Option Nat
  pause_enabled : Bool
  enabled_for_cmap : Bool
  handshake : Bool
deriving DecidableEq, Repr

/-- `x < bound` where `bound = none` means infinity (`float(inf)` in
`Pool.__init__` when `max_pool_size is None`). -/
def lt_opt (x : Int) : Option Nat → Bool
  | none => true
  | some n => x < (n : Int)

/-- `x >= bound` where `bound = none` means infinity (`max_waiters`). -/
def ge_opt (x : Int) : Option Nat → Bool
  | none => false
  | some n => (n : Int) ≤ x

/-- `SocketInfo.idle_time_seconds` (pool.py 856-858): seconds since last
checkin, on the monotonic clock. -/
def SocketInfo.idle_time_seconds (now : Nat) (si : SocketInfo) : Nat :=
  now - si.last_checkin_time

/-- `SocketInfo.close_socket` (pool.py 810-831): idempotent close; flips the
closed flag and publishes `ConnectionClosed reason` when a reason is given
and the pool publishes CMAP events. -/
def close_socket (enabled : Bool) (si : SocketInfo) (reason : Option CloseReason) :
    SocketInfo × List CMAPEvent :=
  if si.closed then (si, [])
  else
    ({ si with closed := true },
     match reason with
     | some r => if enabled then [.ConnectionClosed si.id r] else []
     | none => [])

/-- `Pool._perished` (pool.py 1441-1473).  Inputs from the environment: the
current monotonic time `now` and the result `probe_closed` of the
OS-level liveness probe `sock_info.socket_closed()`.  Returns
(perished?, updated socket, published events). -/
def Pool.perished (cfg : PoolOpts) (generation now : Nat) (probe_closed : Bool)
    (si : SocketInfo) : Bool × SocketInfo × List CMAPEvent :=
  let idle := si.idle_time_seconds now
  let idle_check :=
    match cfg.max_idle_time_seconds with
    | some m => decide (idle > m)
    | none => false
  if idle_check then
    let (si, es) := close_socket cfg.enabled_for_cmap si (some .IDLE)
    (true, si, es)
  else
    let interval_check :=
      match cfg.check_interval_seconds with
      | some c => decide (c = 0) || decide (idle > c)
      | none => false
    if interval_check && probe_closed then
      let (si, es) := close_socket cfg.enabled_for_cmap si (some .ERROR)
      (true, si, es)
    else if si.generation ≠ generation then
      let (si, es) := close_socket cfg.enabled_for_cmap si (some .STALE)
      (true, si, es)
    else
      (false, si, [])

/-- Predicate: the idle-expiry condition of `Pool.perished` fires. -/
def idleFires (cfg : PoolOpts) (now : Nat) (si : SocketInfo) : Bool :=
  match cfg.max_idle_time_seconds with
  | some m => decide (si.idle_time_seconds now > m)
  | none => false

/-- Predicate: the socket-liveness probe of `Pool.perished` runs (the
check-interval gate) and reports the socket closed. -/
def livenessFires (cfg : PoolOpts) (now : Nat) (probe_closed : Bool)
    (si : SocketInfo) : Bool :=
  (match cfg.check_interval_seconds with
   | some c => decide (c = 0) || decide (si.idle_time_seconds now > c)
   | none => false) && probe_closed

/-- C1 counterexample configuration: no idle limit, default 1 s check
interval, CMAP events on. -/
def cfgC1 : PoolOpts :=
  { max_pool_size := some 100, min_pool_size := 0, max_connecting := 2,
    max_idle_time_seconds := none, wait_queue_timeout := none,
    max_waiters := none, check_interval_seconds := some 1,
    pause_enabled := true, enabled_for_cmap := true, handshake := true }

/-- C1 counterexample socket: generation 0, checked in at time 0, open. -/
def siC1 : SocketInfo :=
  { id := 7, generation := 0, closed := false, last_checkin_time := 0,
    is_writable := some true, ready := true, max_bson_size := some MAX_BSON_SIZE }

/-- C1 counterexample: a reused connection whose generation (0) differs from
the pool generation (1) AND whose socket-liveness probe reports the socket
closed (idle 5 s > 1 s check interval, probe true).  The claim's order
(generation second, liveness last) predicts close reason STALE, but
`Pool.perished` closes it with reason ERROR: the liveness probe runs
before the generation check. -/
theorem perished_order_counterexample :
    siC1.generation ≠ 1 ∧
    (Pool.perished cfgC1 1 5 true siC1).2.2 ≠
      [CMAPEvent.ConnectionClosed 7 CloseReason.STALE] ∧
    (Pool.perished cfgC1 1 5 true siC1).2.2 =
      [CMAPEvent.ConnectionClosed 7 CloseReason.ERROR] := by
  refine ⟨by decide, by decide, by decide⟩

/-- C1 amended: `Pool._perished` applies its three checks in the order
idle-time first (close reason IDLE), socket-liveness probe second (close
reason ERROR), generation mismatch last (close reason STALE).  Stated for
an open connection with CMAP events enabled so each close publishes its
reason. -/
theorem perished_check_order (cfg : PoolOpts) (generation now : Nat)
    (probe_closed : Bool) (si : SocketInfo)
    (hopen : si.closed = false) (hen : cfg.enabled_for_cmap = true) :
    (idleFires cfg now si = true →
      (Pool.perished cfg generation now probe_closed si).2.2 =
        [CMAPEvent.ConnectionClosed si.id CloseReason.IDLE]) ∧
    (idleFires cfg now si = false → livenessFires cfg now probe_closed si = true →
      (Pool.perished cfg generation now probe_closed si).2.2 =
        [CMAPEvent.ConnectionClosed si.id CloseReason.ERROR]) ∧
    (idleFires cfg now si = false → livenessFires cfg now probe_closed si = false →
      si.generation ≠ generation →
      (Pool.perished cfg generation now probe_closed si).2.2 =
        [CMAPEvent.ConnectionClosed si.id CloseReason.STALE]) ∧
    (idleFires cfg now si = false → livenessFires cfg now probe_closed si = false →
      si.generation = generation →
      (Pool.perished cfg generation now probe_closed si).1 = false) := by
  unfold Pool.perished idleFires livenessFires close_socket
  refine ⟨?_, ?_, ?_, ?_⟩
  · intro h1
    simp only [SocketInfo.idle_time_seconds] at h1 ⊢
    simp [h1, hopen, hen]
  · intro h1 h2
    rw [Bool.and_eq_true] at h2
    simp only [SocketInfo.idle_time_seconds] at h1 h2 ⊢
    simp [h1, h2.1, h2.2, hopen, hen]
  · intro h1 h2 h3
    simp only [SocketInfo.idle_time_seconds] at h1 h2 ⊢
    rw [Bool.and_eq_false_iff] at h2
    rcases h2 with h2 | h2
    · simp [h1, h2, h3, hopen, hen]
    · simp [h1, h2, h3, hopen, hen]
  · intro h1 h2 h3
    simp only [SocketInfo.idle_time_seconds] at h1 h2 ⊢
    rw [Bool.and_eq_false_iff] at h2
    rcases h2 with h2 | h2
    · simp [h1, h2, h3]
    · simp [h1, h2, h3]

/-- Witness for `perished_check_order` at a concrete input: `siC1` with
idle 5 s, probe reporting closed, matching generation. -/
theorem perished_check_order_witness :
    siC1.closed = false ∧ cfgC1.enabled_for_cmap = true ∧
    (Pool.perished cfgC1 0 5 true siC1).2.2 =
      [CMAPEvent.ConnectionClosed 7 CloseReason.ERROR] :=
  ⟨rfl, rfl,
   (perished_check_order cfgC1 0 5 true siC1 rfl rfl).2.1 (by decide) (by decide)⟩

/-- The mutable state of a `Pool` (pool.py 1031-1095).  `sockets` is the
idle deque with index 0 the left/front (MRU) end: `appendleft` conses,
`popleft` takes the head, `pop` takes the last element. -/
structure PoolSt where
  state : PState
  sockets : List SocketInfo
  active_sockets : Int
  next_connection_id : Nat
  is_writable : Option Bool
  generation : Nat
  pid : Nat
  requests : Int
  waiters : Int
  pending : Int
  operation_count : Int
deriving DecidableEq, Repr

/-- Close every socket of a drained deque with the given reason, collecting
the published events in deque order (the for-loops at pool.py 1132 and
1139). -/
def closeAll (enabled : Bool) (socks : List SocketInfo) (r : CloseReason) :
    List Effect :=
  (socks.map (fun si => ((close_socket enabled si (some r)).2).map Effect.event)).flatten

/-- `Pool.ready` (pool.py 1097-1101): unconditionally set the state to READY
and publish `PoolReady` when the previous state was not READY. -/
def Pool.doReady (cfg : PoolOpts) (st : PoolSt) : PoolSt × List Effect :=
  let old := st.state
  ({ st with state := .READY },
   if old ≠ PState.READY ∧ cfg.enabled_for_cmap then [.event .PoolReady] else [])

/-- `Pool._reset` (pool.py 1107-1140).  `close` distinguishes `close()` from
`reset()`; `curpid` is the ambient `os.getpid()`.  Returns the new state
and the effect trace: wait-queue clearing notifications, then for
`close()` the POOL_CLOSED connection closes followed by `PoolClosed`,
and for `reset()` `PoolCleared` (when leaving a non-PAUSED state with
CMAP enabled) followed by the STALE connection closes. -/
def Pool.doReset (cfg : PoolOpts) (close pause : Bool) (curpid : Nat)
    (st : PoolSt) : PoolSt × List Effect :=
  let old_state := st.state
  if st.state = PState.CLOSED then (st, [])
  else
    let st := if cfg.pause_enabled && pause then { st with state := .PAUSED } else st
    let st := { st with generation := st.generation + 1 }
    let st :=
      if st.pid ≠ curpid then
        { st with pid := curpid, active_sockets := 0, operation_count := 0 }
      else st
    let socks := st.sockets
    let st := { st with sockets := [] }
    let st := if close then { st with state := .CLOSED } else st
    let clearWaiters : List Effect := [.notifyAllMaxConn, .notifyAllSize]
    if close then
      (st, clearWaiters ++ closeAll cfg.enabled_for_cmap socks .POOL_CLOSED ++
        (if cfg.enabled_for_cmap then [.event .PoolClosed] else []))
    else
      (st, clearWaiters ++
        (if old_state ≠ PState.PAUSED ∧ cfg.enabled_for_cmap
         then [.event .PoolCleared] else []) ++
        closeAll cfg.enabled_for_cmap socks .STALE)

/-- `Pool.return_socket` (pool.py 1408-1439).  `curpid` is the ambient
`os.getpid()` and `now` the monotonic clock at checkin time. -/
def Pool.return_socket (cfg : PoolOpts) (curpid now : Nat) (st : PoolSt)
    (si : SocketInfo) : PoolSt × List Effect :=
  let effs : List Effect :=
    if cfg.enabled_for_cmap then [.event (.CheckedIn si.id)] else []
  let (st, effs) :=
    if st.pid ≠ curpid then
      let (st1, e1) := Pool.doReset cfg false true curpid st
      (st1, effs ++ e1)
    else if st.state = PState.CLOSED then
      (st, effs ++ ((close_socket cfg.enabled_for_cmap si (some .POOL_CLOSED)).2).map .event)
    else if !si.closed then
      if si.generation ≠ st.generation then
        (st, effs ++ ((close_socket cfg.enabled_for_cmap si (some .STALE)).2).map .event)
      else
        let si' := { si with last_checkin_time := now, is_writable := st.is_writable }
        ({ st with sockets := si' :: st.sockets }, effs ++ [.notifyMaxConn])
    else (st, effs)
  ({ st with requests := st.requests - 1, active_sockets := st.active_sockets - 1,
             operation_count := st.operation_count - 1 },
   effs ++ [.notifySize])

/-- When every socket of the deque is open, the drain of `Pool._reset`
closes each one and publishes exactly one `ConnectionClosed` per socket,
in deque order. -/
theorem closeAll_open (socks : List SocketInfo) (r : CloseReason)
    (h : ∀ si ∈ socks, si.closed = false) :
    closeAll true socks r =
      socks.map (fun si => Effect.event (.ConnectionClosed si.id r)) := by
  induction socks with
  | nil => rfl
  | cons si rest ih =>
    have hsi := h si (List.mem_cons_self si rest)
    have hrest : ∀ s ∈ rest, s.closed = false :=
      fun s hs => h s (List.mem_cons_of_mem si hs)
    have ih2 := ih hrest
    simp only [closeAll, List.map_cons, List.flatten_cons] at ih2 ⊢
    rw [ih2]
    simp [close_socket, hsi]

/-- C5: event ordering around drains.  For a pool that is not CLOSED, with
CMAP events enabled, pause enabled, every deque socket open and no pid
drift: `close()` produces the wait-queue notifications, then one
`ConnectionClosed POOL_CLOSED` per drained connection, then `PoolClosed`;
`reset()` produces the notifications, then `PoolCleared` exactly when the
old state was not PAUSED, then one `ConnectionClosed STALE` per drained
connection.  In particular `PoolClosed` comes after the closes and
`PoolCleared` before them. -/
theorem reset_close_event_order (cfg : PoolOpts) (st : PoolSt)
    (hstate : st.state ≠ PState.CLOSED) (hen : cfg.enabled_for_cmap = true)
    (hopen : ∀ si ∈ st.sockets, si.closed = false) :
    (Pool.doReset cfg true true st.pid st).2 =
      [Effect.notifyAllMaxConn, Effect.notifyAllSize] ++
        st.sockets.map (fun si => Effect.event (.ConnectionClosed si.id .POOL_CLOSED)) ++
        [Effect.event .PoolClosed] ∧
    (Pool.doReset cfg false true st.pid st).2 =
      [Effect.notifyAllMaxConn, Effect.notifyAllSize] ++
        (if st.state ≠ PState.PAUSED then [Effect.event .PoolCleared] else []) ++
        st.sockets.map (fun si => Effect.event (.ConnectionClosed si.id .STALE)) := by
  constructor
  · unfold Pool.doReset
    rw [if_neg hstate]
    cases hpb : cfg.pause_enabled <;>
      simp [hen, closeAll_open st.sockets .POOL_CLOSED hopen]
  · unfold Pool.doReset
    rw [if_neg hstate]
    cases hpb : cfg.pause_enabled <;>
      simp [hen, closeAll_open st.sockets .STALE hopen]

/-- C5 witness: a READY pool with two open sockets, default options. -/
def siA : SocketInfo :=
  { id := 1, generation := 0, closed := false, last_checkin_time := 3,
    is_writable := some true, ready := true, max_bson_size := some MAX_BSON_SIZE }

/-- Second socket for the C5 witness pool. -/
def siB : SocketInfo :=
  { id := 2, generation := 0, closed := false, last_checkin_time := 5,
    is_writable := some true, ready := true, max_bson_size := some MAX_BSON_SIZE }

/-- A READY pool holding `siB` (front) and `siA` with both counters at
rest, used as a concrete state by several witnesses. -/
def stReady : PoolSt :=
  { state := .READY, sockets := [siB, siA], active_sockets := 0,
    next_connection_id := 3, is_writable := some true, generation := 0,
    pid := 41, requests := 0, waiters := 0, pending := 0, operation_count := 0 }

/-- Witness for `reset_close_event_order` on the concrete pool `stReady`. -/
theorem reset_close_event_order_witness :
    stReady.state ≠ PState.CLOSED ∧
    (Pool.doReset cfgC1 true true stReady.pid stReady).2 =
      [Effect.notifyAllMaxConn, Effect.notifyAllSize,
       Effect.event (.ConnectionClosed 2 .POOL_CLOSED),
       Effect.event (.ConnectionClosed 1 .POOL_CLOSED),
       Effect.event .PoolClosed] := by
  have h := reset_close_event_order cfgC1 stReady (by decide) rfl (by decide)
  exact ⟨by decide, by rw [h.1]; rfl⟩

/-- C9: `ready()` is idempotent.  With CMAP events enabled: on a PAUSED
pool it transitions to READY and publishes exactly one `PoolReady`; on an
already-READY pool it leaves the state READY and publishes nothing. -/
theorem ready_idempotent (cfg : PoolOpts) (st : PoolSt)
    (hen : cfg.enabled_for_cmap = true) :
    (st.state = PState.PAUSED →
      Pool.doReady cfg st = ({ st with state := .READY }, [Effect.event .PoolReady])) ∧
    (st.state = PState.READY →
      Pool.doReady cfg st = (st, [])) := by
  constructor
  · intro h
    unfold Pool.doReady
    rw [h]
    simp [hen]
  · intro h
    unfold Pool.doReady
    rw [h]
    have hst : { st with state := PState.READY } = st := by
      cases st
      simp_all
    rw [hst]
    simp

/-- Witness for `ready_idempotent`: applying `ready()` twice to a PAUSED
pool yields one `PoolReady` then none. -/
theorem ready_idempotent_witness :
    (Pool.doReady cfgC1 { stReady with state := .PAUSED }).2 =
      [Effect.event .PoolReady] ∧
    (Pool.doReady cfgC1 stReady).2 = [] := by
  constructor
  · rw [(ready_idempotent cfgC1 { stReady with state := .PAUSED } rfl).1 rfl]
  · rw [(ready_idempotent cfgC1 stReady rfl).2 rfl]

/-- C6: checkin of an open connection into a non-closed pool without pid
drift.  If the connection generation differs from the pool generation it
is closed with STALE and not requeued; otherwise its checkin timestamp is
stamped with `now`, the pool `is_writable` is copied onto it, it is
pushed on the front of the idle deque and one creation-throttle waiter is
notified.  In all cases `requests`, `active_sockets` and
`operation_count` are decremented and one admission waiter is notified
last. -/
theorem return_socket_spec (cfg : PoolOpts) (st : PoolSt) (si : SocketInfo)
    (now : Nat) (hstate : st.state ≠ PState.CLOSED) (hopen : si.closed = false)
    (hen : cfg.enabled_for_cmap = true) :
    (si.generation ≠ st.generation →
      Pool.return_socket cfg st.pid now st si =
        ({ st with requests := st.requests - 1,
                   active_sockets := st.active_sockets - 1,
                   operation_count := st.operation_count - 1 },
         [Effect.event (.CheckedIn si.id),
          Effect.event (.ConnectionClosed si.id .STALE), Effect.notifySize])) ∧
    (si.generation = st.generation →
      Pool.return_socket cfg st.pid now st si =
        ({ st with
             sockets := { si with last_checkin_time := now,
                                  is_writable := st.is_writable } :: st.sockets,
             requests := st.requests - 1,
             active_sockets := st.active_sockets - 1,
             operation_count := st.operation_count - 1 },
         [Effect.event (.CheckedIn si.id), Effect.notifyMaxConn,
          Effect.notifySize])) := by
  constructor
  · intro hgen
    unfold Pool.return_socket
    simp [hstate, hopen, hgen, hen, close_socket]
  · intro hgen
    unfold Pool.return_socket
    simp [hstate, hopen, hgen, hen]

/-- Witness for `return_socket_spec`: checking `siA` (matching generation)
back into `stReady` at time 9 requeues it at the front with the timestamp
stamped. -/
theorem return_socket_spec_witness :
    (Pool.return_socket cfgC1 stReady.pid 9 stReady siA).1.sockets =
      [{ siA with last_checkin_time := 9, is_writable := some true }, siB, siA] ∧
    (Pool.return_socket cfgC1 stReady.pid 9 stReady siA).2 =
      [Effect.event (.CheckedIn 1), Effect.notifyMaxConn, Effect.notifySize] := by
  have h := (return_socket_spec cfgC1 stReady siA 9 (by decide) rfl rfl).2 rfl
  rw [h]
  exact ⟨rfl, rfl⟩

/-- Outcome of one `_cond_wait` (pool.py 250-252): while the lock is
released other threads may mutate the shared pool state (`interim`), and
the wait either is woken (`woken = true`) or times out. -/
structure WaitOutcome where
  interim : PoolSt → PoolSt
  woken : Bool

/-- `_cond_wait` can only return `False` when a deadline is set
(`wait_queue_timeout` configured, pool.py 1324-1327); with no deadline
`condition.wait(None)` blocks until notified. -/
def eff_woken (cfg : PoolOpts) (w : WaitOutcome) : Bool :=
  cfg.wait_queue_timeout.isNone || w.woken

/-- Events of `Pool._raise_wait_queue_timeout` (pool.py 1475-1483). -/
def timeout_effects (cfg : PoolOpts) : List Effect :=
  if cfg.enabled_for_cmap then [.event (.CheckOutFailed .TIMEOUT)] else []

/-- Events of `Pool._raise_if_not_ready` (pool.py 1296-1302) when the pool
is not READY. -/
def not_ready_effects (cfg : PoolOpts) (emit_event : Bool) : List Effect :=
  if cfg.enabled_for_cmap && emit_event then [.event (.CheckOutFailed .CONN_ERROR)] else []

/-- Failure modes of `Pool._get_socket`.  `out_of_fuel` is a model
artifact: the supplied wait/loop budget ran out where the real code
would keep blocking. -/
inductive GetSockErr
  | pool_closed
  | pool_paused
  | exceeded_max_waiters
  | wait_queue_timeout
  | connect_failed
  | auth_failed
  | out_of_fuel
deriving DecidableEq, Repr

/-- The admission wait loop of `Pool._get_socket` (pool.py 1337-1344):
while `requests < max_pool_size` fails, wait on `size_cond`; on timeout
notify the next admission waiter only if the predicate now holds, then
raise the wait-queue timeout; on wakeup re-check readiness. -/
def size_wait_loop (cfg : PoolOpts) :
    List WaitOutcome → PoolSt → PoolSt × List Effect × Option GetSockErr
  | [], st =>
    if lt_opt st.requests cfg.max_pool_size then (st, [], none)
    else (st, [], some .out_of_fuel)
  | w :: rest, st =>
    if lt_opt st.requests cfg.max_pool_size then (st, [], none)
    else
      let st' := w.interim st
      if eff_woken cfg w = false then
        (st',
         (if lt_opt st'.requests cfg.max_pool_size then [Effect.notifySize] else []) ++
           timeout_effects cfg,
         some .wait_queue_timeout)
      else if st'.state ≠ PState.READY then
        (st', not_ready_effects cfg true, some .pool_paused)
      else size_wait_loop cfg rest st'

/-- The admission stage of `Pool._get_socket` (pool.py 1329-1347): ready
check, `max_waiters` check, `waiters` bracketing around the admission
wait loop, then `requests += 1` on success. -/
def Pool.admission (cfg : PoolOpts) (waits : List WaitOutcome) (st : PoolSt) :
    PoolSt × List Effect × Option GetSockErr :=
  if st.state ≠ PState.READY then (st, not_ready_effects cfg true, some .pool_paused)
  else if ge_opt st.waiters cfg.max_waiters then (st, [], some .exceeded_max_waiters)
  else
    let r := size_wait_loop cfg waits { st with waiters := st.waiters + 1 }
    let st2 := { r.1 with waiters := r.1.waiters - 1 }
    match r.2.2 with
    | some e => (st2, r.2.1, some e)
    | none => ({ st2 with requests := st2.requests + 1 }, r.2.1, none)

/-- Environment outcome of `Pool.connect`'s collaborators: the dial (and
TLS) either fails, or yields a stream after which the handshake reports
`hs_writable` and authentication succeeds or fails. -/
inductive ConnectOutcome
  | dialFail
  | run (hs_writable : Bool) (auth_ok : Bool)

/-- `Pool.connect` (pool.py 1213-1252): allocate the next connection id,
publish `ConnectionCreated`, dial; on dial failure publish
`ConnectionClosed ERROR` and fail; otherwise build the `SocketInfo`,
perform the handshake (recording the writable flag on the pool), and run
`check_auth`, closing with ERROR on authentication failure.
`check_auth` publishes `ConnectionReady` on first success. -/
def Pool.connect (cfg : PoolOpts) (now : Nat) (out : ConnectOutcome)
    (st : PoolSt) : PoolSt × List Effect × Option SocketInfo :=
  let conn_id := st.next_connection_id
  let st := { st with next_connection_id := st.next_connection_id + 1 }
  let createdE : List Effect :=
    if cfg.enabled_for_cmap then [.event (.ConnectionCreated conn_id)] else []
  match out with
  | .dialFail =>
    (st, createdE ++
      (if cfg.enabled_for_cmap then [Effect.event (.ConnectionClosed conn_id .ERROR)] else []),
     none)
  | .run w authOk =>
    let si : SocketInfo :=
      { id := conn_id, generation := st.generation, closed := false,
        last_checkin_time := now, is_writable := some false, ready := false,
        max_bson_size := some MAX_BSON_SIZE }
    let si := if cfg.handshake then { si with is_writable := some w } else si
    let st := if cfg.handshake then { st with is_writable := some w } else st
    if authOk then
      (st, createdE ++
        (if cfg.enabled_for_cmap then [Effect.event (.ConnectionReady conn_id)] else []),
       some { si with ready := true })
    else
      (st, createdE ++
        (if cfg.enabled_for_cmap then [Effect.event (.ConnectionClosed conn_id .ERROR)] else []),
       none)

/-- `SocketInfo.check_auth` (pool.py 764-783): authentication either
succeeds (publishing `ConnectionReady` the first time) or raises. -/
def SocketInfo.check_auth (si : SocketInfo) (enabled authOk : Bool) :
    SocketInfo × List CMAPEvent × Bool :=
  if authOk then
    if si.ready then (si, [], true)
    else ({ si with ready := true },
          if enabled then [.ConnectionReady si.id] else [], true)
  else (si, [], false)

/-- The creation-throttle predicate (pool.py 1363-1364): an idle socket is
available, or a creation slot is free. -/
def conn_wait_pred (cfg : PoolOpts) (st : PoolSt) : Bool :=
  !st.sockets.isEmpty || decide (st.pending < (cfg.max_connecting : Int))

/-- The creation-throttle wait loop of `Pool._get_socket` (pool.py
1363-1373): wait on `_max_connecting_cond` until the predicate holds; on
timeout notify the next waiter only if the predicate now holds, then
raise; on wakeup re-check readiness (without emitting the checkout-failed
event).  Returns the unconsumed wait outcomes since the deadline spans
iterations of the enclosing loop. -/
def conn_wait_loop (cfg : PoolOpts) :
    List WaitOutcome → PoolSt → PoolSt × List Effect × Option GetSockErr × List WaitOutcome
  | [], st =>
    if conn_wait_pred cfg st then (st, [], none, [])
    else (st, [], some .out_of_fuel, [])
  | w :: rest, st =>
    if conn_wait_pred cfg st then (st, [], none, w :: rest)
    else
      let st' := w.interim st
      if eff_woken cfg w = false then
        (st',
         (if conn_wait_pred cfg st' then [Effect.notifyMaxConn] else []) ++
           timeout_effects cfg,
         some .wait_queue_timeout, rest)
      else if st'.state ≠ PState.READY then
        (st', not_ready_effects cfg false, some .pool_paused, rest)
      else conn_wait_loop cfg rest st'

/-- The creation loop of `Pool._get_socket` (pool.py 1358-1389): repeat
until a connection is secured.  Each iteration re-checks readiness, waits
for the creation-throttle predicate, then pops the front idle socket if
any (discarding it and retrying when perished), else reserves a
`_pending` slot, dials outside the lock, and releases the slot (notifying
one creation waiter) whether or not the dial succeeded.  `fuel` bounds
the iterations (model artifact); `probes` feeds the liveness probe of
each popped socket. -/
def creation_loop (cfg : PoolOpts) (now : Nat) (connect_out : ConnectOutcome) :
    Nat → List WaitOutcome → List Bool → PoolSt →
    PoolSt × List Effect × (GetSockErr ⊕ SocketInfo)
  | 0, _, _, st => (st, [], .inl .out_of_fuel)
  | fuel + 1, cwaits, probes, st =>
    if st.state ≠ PState.READY then (st, not_ready_effects cfg false, .inl .pool_paused)
    else
      let r0 := conn_wait_loop cfg cwaits st
      let st := r0.1
      let effs1 := r0.2.1
      match r0.2.2.1 with
      | some e => (st, effs1, .inl e)
      | none =>
        match st.sockets with
        | si :: restSocks =>
          let st := { st with sockets := restSocks }
          let probe := probes.headD false
          let pr := Pool.perished cfg st.generation now probe si
          if pr.1 then
            let r2 := creation_loop cfg now connect_out fuel r0.2.2.2 probes.tail st
            (r2.1, effs1 ++ (pr.2.2).map .event ++ r2.2.1, r2.2.2)
          else
            (st, effs1 ++ (pr.2.2).map .event, .inr si)
        | [] =>
          let st := { st with pending := st.pending + 1 }
          let rc := Pool.connect cfg now connect_out st
          let st := { rc.1 with pending := rc.1.pending - 1 }
          match rc.2.2 with
          | none => (st, effs1 ++ rc.2.1 ++ [Effect.notifyMaxConn], .inl .connect_failed)
          | some si => (st, effs1 ++ rc.2.1 ++ [Effect.notifyMaxConn], .inr si)

/-- The environment of one `Pool._get_socket` call: the ambient pid and
clock, the outcomes of the condition-variable waits on each CV, the
dial/handshake/auth outcome, the liveness probes of popped sockets, the
outcome of the final `check_auth`, and the creation-loop budget. -/
structure GetSockEnv where
  curpid : Nat
  now : Nat
  size_waits : List WaitOutcome
  conn_waits : List WaitOutcome
  connect_out : ConnectOutcome
  probes : List Bool
  auth_ok : Bool
  fuel : Nat

/-- `Pool._get_socket` (pool.py 1304-1406): fork check (implicit reset),
closed check (fail with `CheckOutFailed POOL_CLOSED`), `operation_count`
increment, admission stage, `active_sockets` increment, creation loop,
final `check_auth`; on any exception after admission close the socket if
one was obtained, release `requests`/`active_sockets`, notify one
admission waiter, and publish `CheckOutFailed CONN_ERROR` unless the
timeout event was already published. -/
def Pool.get_socket (cfg : PoolOpts) (env : GetSockEnv) (st : PoolSt) :
    PoolSt × List Effect × (GetSockErr ⊕ SocketInfo) :=
  let r0 := if st.pid ≠ env.curpid then Pool.doReset cfg false true env.curpid st
            else (st, [])
  let st := r0.1
  let effs0 := r0.2
  if st.state = PState.CLOSED then
    (st, effs0 ++
      (if cfg.enabled_for_cmap then [Effect.event (.CheckOutFailed .POOL_CLOSED)] else []),
     .inl .pool_closed)
  else
    let st := { st with operation_count := st.operation_count + 1 }
    let r1 := Pool.admission cfg env.size_waits st
    let st := r1.1
    let effs1 := r1.2.1
    match r1.2.2 with
    | some e => (st, effs0 ++ effs1, .inl e)
    | none =>
      let st := { st with active_sockets := st.active_sockets + 1 }
      let r2 := creation_loop cfg env.now env.connect_out env.fuel env.conn_waits env.probes st
      let st := r2.1
      let effs2 := r2.2.1
      match r2.2.2 with
      | .inr si =>
        let ra := si.check_auth cfg.enabled_for_cmap env.auth_ok
        if ra.2.2 then
          (st, effs0 ++ effs1 ++ effs2 ++ (ra.2.1).map .event, .inr ra.1)
        else
          let st := { st with requests := st.requests - 1,
                              active_sockets := st.active_sockets - 1 }
          (st, effs0 ++ effs1 ++ effs2 ++ (ra.2.1).map .event ++
            ((close_socket cfg.enabled_for_cmap ra.1 (some .ERROR)).2).map .event ++
            [Effect.notifySize] ++
            (if cfg.enabled_for_cmap then [Effect.event (.CheckOutFailed .CONN_ERROR)] else []),
           .inl .auth_failed)
      | .inl e =>
        let st := { st with requests := st.requests - 1,
                            active_sockets := st.active_sockets - 1 }
        (st, effs0 ++ effs1 ++ effs2 ++ [Effect.notifySize] ++
          (if cfg.enabled_for_cmap ∧ e ≠ GetSockErr.wait_queue_timeout
           then [Effect.event (.CheckOutFailed .CONN_ERROR)] else []),
         .inl e)

/-- The idle-prune scan of `Pool.remove_stale_sockets` (pool.py 1169-1174)
expressed on the reversed deque: starting from the oldest (right) end,
pop and close with IDLE while the idle time exceeds the bound, stopping
at the first fresh socket. -/
def prune_rev (enabled : Bool) (maxIdle now : Nat) :
    List SocketInfo → List SocketInfo × List CMAPEvent
  | [] => ([], [])
  | si :: rest =>
    if si.idle_time_seconds now > maxIdle then
      let r := prune_rev enabled maxIdle now rest
      (r.1, (close_socket enabled si (some .IDLE)).2 ++ r.2)
    else (si :: rest, [])

/-- The idle-prune phase of `Pool.remove_stale_sockets` (pool.py
1169-1174): runs only when `max_idle_time_seconds` is configured. -/
def prune_idle (cfg : PoolOpts) (now : Nat) (st : PoolSt) : PoolSt × List Effect :=
  match cfg.max_idle_time_seconds with
  | none => (st, [])
  | some m =>
    let pr := prune_rev cfg.enabled_for_cmap m now st.sockets.reverse
    ({ st with sockets := pr.1.reverse }, pr.2.map .event)

/-- The min-fill loop of `Pool.remove_stale_sockets` (pool.py 1176-1211):
while the pool is below `min_pool_size` and the admission gate allows,
reserve `requests` and a `_pending` slot (giving up rather than waiting
when `max_connecting` creations are in flight), connect, and either
append the new socket on the front or discard it with STALE if the
generation moved past `reference_generation`; the finally blocks release
`_pending` (notifying one creation waiter) and `requests` (notifying one
admission waiter).  The returned flag is false when a connect failure
propagated. -/
def min_fill_loop (cfg : PoolOpts) (now refGen : Nat) :
    Nat → List ConnectOutcome → PoolSt → PoolSt × List Effect × Bool
  | 0, _, st => (st, [], true)
  | fuel + 1, connect_outs, st =>
    if (st.sockets.length : Int) + st.active_sockets ≥ (cfg.min_pool_size : Int) then
      (st, [], true)
    else if st.requests ≥ (cfg.min_pool_size : Int) then (st, [], true)
    else
      let st := { st with requests := st.requests + 1 }
      if st.pending ≥ (cfg.max_connecting : Int) then
        ({ st with requests := st.requests - 1 }, [Effect.notifySize], true)
      else
        let st := { st with pending := st.pending + 1 }
        let rc := Pool.connect cfg now (connect_outs.headD .dialFail) st
        match rc.2.2 with
        | none =>
          ({ rc.1 with pending := rc.1.pending - 1, requests := rc.1.requests - 1 },
           rc.2.1 ++ [Effect.notifyMaxConn, Effect.notifySize], false)
        | some si =>
          if rc.1.generation ≠ refGen then
            ({ rc.1 with pending := rc.1.pending - 1, requests := rc.1.requests - 1 },
             rc.2.1 ++ ((close_socket cfg.enabled_for_cmap si (some .STALE)).2).map .event ++
               [Effect.notifyMaxConn, Effect.notifySize], true)
          else
            let st2 := { rc.1 with sockets := si :: rc.1.sockets,
                                   pending := rc.1.pending - 1,
                                   requests := rc.1.requests - 1 }
            let r2 := min_fill_loop cfg now refGen fuel connect_outs.tail st2
            (r2.1, rc.2.1 ++ [Effect.notifyMaxConn, Effect.notifySize] ++ r2.2.1, r2.2.2)

/-- `Pool.remove_stale_sockets` (pool.py 1160-1211): no-op unless READY;
otherwise prune idle sockets, then fill up to `min_pool_size`. -/
def Pool.remove_stale_sockets (cfg : PoolOpts) (now refGen : Nat)
    (connect_outs : List ConnectOutcome) (fuel : Nat) (st : PoolSt) :
    PoolSt × List Effect :=
  if st.state ≠ PState.READY then (st, [])
  else
    let r1 := prune_idle cfg now st
    let r2 := min_fill_loop cfg now refGen fuel connect_outs r1.1
    (r2.1, r1.2 ++ r2.2.1)

/-- One public pool operation together with its ambient environment
(current pid, clock, collaborator outcomes). -/
inductive PoolOp
  | op_ready
  | op_reset (curpid : Nat)
  | op_reset_without_pause (curpid : Nat)
  | op_close (curpid : Nat)
  | op_checkout (env : GetSockEnv)
  | op_checkin (curpid now : Nat) (si : SocketInfo)
  | op_maintain (now refGen : Nat) (connect_outs : List ConnectOutcome) (fuel : Nat)

/-- The state reached by one pool operation (`ready`, `reset`,
`reset_without_pause`, `close`, `get_socket`, `return_socket`,
`remove_stale_sockets`; pool.py 1097-1158, 1304, 1408, 1160). -/
def Pool.applyOp (cfg : PoolOpts) (st : PoolSt) : PoolOp → PoolSt
  | .op_ready => (Pool.doReady cfg st).1
  | .op_reset curpid => (Pool.doReset cfg false true curpid st).1
  | .op_reset_without_pause curpid => (Pool.doReset cfg false false curpid st).1
  | .op_close curpid => (Pool.doReset cfg true true curpid st).1
  | .op_checkout env => (Pool.get_socket cfg env st).1
  | .op_checkin curpid now si => (Pool.return_socket cfg curpid now st si).1
  | .op_maintain now refGen cos fuel =>
      (Pool.remove_stale_sockets cfg now refGen cos fuel st).1

/-- Any operation other than `ready()` leaves a CLOSED pool CLOSED:
`_reset` returns early on a closed pool, `_get_socket` fails before
touching the state, `return_socket` and `remove_stale_sockets` never
write the state. -/
theorem closed_stays_closed (cfg : PoolOpts) (st : PoolSt) (op : PoolOp)
    (hcl : st.state = PState.CLOSED) (hop : op ≠ PoolOp.op_ready) :
    (Pool.applyOp cfg st op).state = PState.CLOSED := by
  cases op with
  | op_ready => exact absurd rfl hop
  | op_reset curpid => simp [Pool.applyOp, Pool.doReset, hcl]
  | op_reset_without_pause curpid => simp [Pool.applyOp, Pool.doReset, hcl]
  | op_close curpid => simp [Pool.applyOp, Pool.doReset, hcl]
  | op_checkout env => simp [Pool.applyOp, Pool.get_socket, Pool.doReset, hcl]
  | op_checkin curpid now si =>
    simp only [Pool.applyOp, Pool.return_socket, Pool.doReset, hcl]
    split <;> simp [hcl]
  | op_maintain now refGen cos fuel =>
    simp [Pool.applyOp, Pool.remove_stale_sockets, hcl]

/-- The pool reached by `close()` on `stReady`. -/
def stClosed : PoolSt := (Pool.doReset cfgC1 true true 41 stReady).1

/-- C3 counterexample: `ready()` moves a CLOSED pool back to READY
(pool.py 1097-1098 sets the state unconditionally), so CLOSED is not
terminal and CLOSED to READY is a reachable transition outside the
claimed DAG. -/
theorem closed_terminal_counterexample :
    stClosed.state = PState.CLOSED ∧
    (Pool.applyOp cfgC1 stClosed PoolOp.op_ready).state = PState.READY := by
  exact ⟨by decide, by decide⟩

/-- C3 amended: CLOSED is terminal with respect to every operation except
`ready()`: once `close()` has set the state to CLOSED, no sequence of
`reset`, `reset_without_pause`, `close`, checkout, checkin or maintenance
operations moves the pool out of CLOSED.  (`ready()` does: it
unconditionally sets the state to READY.) -/
theorem closed_terminal_except_ready (cfg : PoolOpts) (st : PoolSt)
    (ops : List PoolOp) (hcl : st.state = PState.CLOSED)
    (hops : ∀ op ∈ ops, op ≠ PoolOp.op_ready) :
    (ops.foldl (Pool.applyOp cfg) st).state = PState.CLOSED := by
  induction ops generalizing st with
  | nil => exact hcl
  | cons op rest ih =>
    simp only [List.foldl_cons]
    exact ih (Pool.applyOp cfg st op)
      (closed_stays_closed cfg st op hcl (hops op (List.mem_cons_self op rest)))
      (fun o ho => hops o (List.mem_cons_of_mem op ho))

/-- Witness for `closed_terminal_except_ready`: `stClosed` stays CLOSED
under a reset followed by a close. -/
theorem closed_terminal_except_ready_witness :
    stClosed.state = PState.CLOSED ∧
    ([PoolOp.op_reset 41, PoolOp.op_close 41].foldl (Pool.applyOp cfgC1) stClosed).state =
      PState.CLOSED := by
  refine ⟨by decide, ?_⟩
  refine closed_terminal_except_ready cfgC1 stClosed _ (by decide) ?_
  intro op hop
  simp only [List.mem_cons, List.mem_singleton] at hop
  rcases hop with h | h | h
  · rw [h]; intro hc; cases hc
  · rw [h]; intro hc; cases hc
  · cases h

/-- C7 amended: a checkout attempted while the pool is CLOSED (no pid
drift) publishes `CheckOutFailed POOL_CLOSED` (when CMAP events are
enabled), raises the pool-closed error, leaves the state untouched, and
publishes no `ConnectionCreated`; and as long as `ready()` is not called,
any sequence of further operations keeps the pool CLOSED, so every
subsequent checkout fails the same way. -/
theorem checkout_on_closed (cfg : PoolOpts) (env : GetSockEnv) (st : PoolSt)
    (ops : List PoolOp) (hcl : st.state = PState.CLOSED)
    (hpid : st.pid = env.curpid)
    (hops : ∀ op ∈ ops, op ≠ PoolOp.op_ready) :
    Pool.get_socket cfg env st =
      (st,
       (if cfg.enabled_for_cmap then [Effect.event (.CheckOutFailed .POOL_CLOSED)] else []),
       .inl .pool_closed) ∧
    (∀ i, Effect.event (.ConnectionCreated i) ∉ (Pool.get_socket cfg env st).2.1) ∧
    (ops.foldl (Pool.applyOp cfg) st).state = PState.CLOSED := by
  have h1 : Pool.get_socket cfg env st =
      (st,
       (if cfg.enabled_for_cmap then [Effect.event (.CheckOutFailed .POOL_CLOSED)] else []),
       .inl .pool_closed) := by
    unfold Pool.get_socket
    rw [hpid]
    simp [hcl]
  refine ⟨h1, ?_, ?_⟩
  · intro i
    rw [h1]
    cases h : cfg.enabled_for_cmap <;> simp
  · clear h1 hpid
    induction ops generalizing st with
    | nil => exact hcl
    | cons op rest ih =>
      simp only [List.foldl_cons]
      exact ih (Pool.applyOp cfg st op)
        (closed_stays_closed cfg st op hcl (hops op (List.mem_cons_self op rest)))
        (fun o ho => hops o (List.mem_cons_of_mem op ho))

/-- Environment of a plain successful checkout on the witness pool (pid
41): no waiting needed, dial and auth succeed. -/
def envOk : GetSockEnv :=
  { curpid := 41, now := 10, size_waits := [], conn_waits := [],
    connect_out := .run true true, probes := [], auth_ok := true, fuel := 1 }

/-- Witness for `checkout_on_closed`: on the concrete closed pool
`stClosed`, the checkout fails with pool-closed after publishing only
`CheckOutFailed POOL_CLOSED`, and a subsequent reset keeps it CLOSED. -/
theorem checkout_on_closed_witness :
    stClosed.state = PState.CLOSED ∧
    (Pool.get_socket cfgC1 envOk stClosed).2.2 = Sum.inl GetSockErr.pool_closed ∧
    Effect.event (.ConnectionCreated 3) ∉ (Pool.get_socket cfgC1 envOk stClosed).2.1 ∧
    ([PoolOp.op_reset 41].foldl (Pool.applyOp cfgC1) stClosed).state = PState.CLOSED := by
  have h := checkout_on_closed cfgC1 envOk stClosed [PoolOp.op_reset 41]
    (by decide) (by decide) ?_
  · exact ⟨by decide, by rw [h.1], h.2.1 3, h.2.2⟩
  · intro op hop
    simp only [List.mem_singleton] at hop
    rw [hop]
    intro hc
    cases hc

/-- The pool reached by `close()` followed by `ready()` on `stReady`. -/
def stClosedReady : PoolSt := (Pool.doReady cfgC1 stClosed).1

/-- C7 counterexample: `close()` followed by `ready()` yields a pool on
which a checkout succeeds and publishes `ConnectionCreated`, so "after
close(), every subsequent checkout fails with pool-closed and no
ConnectionCreated event is emitted" is false as stated (the escape is
`ready()`, see the C3 counterexample). -/
theorem checkout_after_close_counterexample :
    stClosed.state = PState.CLOSED ∧
    (Pool.get_socket cfgC1 envOk stClosedReady).2.2 ≠ Sum.inl GetSockErr.pool_closed ∧
    (∃ e, (Pool.get_socket cfgC1 envOk stClosedReady).2.2 = Sum.inr e) ∧
    Effect.event (.ConnectionCreated 3) ∈ (Pool.get_socket cfgC1 envOk stClosedReady).2.1 := by
  refine ⟨by decide, by decide, ⟨?_, ?_⟩, by decide⟩
  · exact { id := 3, generation := 1, closed := false, last_checkin_time := 10,
            is_writable := some true, ready := true, max_bson_size := some MAX_BSON_SIZE }
  · decide

/-- C8 amended: when a checkout wait times out, the waiter raises the
wait-queue-timeout failure, and it notifies a sibling on that condition
variable if and only if the CV's predicate holds at the moment of the
timeout (admission CV: `requests < max_pool_size`; creation CV: idle
socket available or `pending < max_connecting`).  A timeout observed with
the predicate still false notifies nobody. -/
theorem timeout_notify_iff_pred (cfg : PoolOpts) (st : PoolSt) (w : WaitOutcome)
    (rest : List WaitOutcome)
    (hfull : lt_opt st.requests cfg.max_pool_size = false)
    (hto : eff_woken cfg w = false) :
    ((size_wait_loop cfg (w :: rest) st).2.2 = some .wait_queue_timeout ∧
     (Effect.notifySize ∈ (size_wait_loop cfg (w :: rest) st).2.1 ↔
        lt_opt (w.interim st).requests cfg.max_pool_size = true)) ∧
    (∀ st2, conn_wait_pred cfg st2 = false →
      (conn_wait_loop cfg (w :: rest) st2).2.2.1 = some .wait_queue_timeout ∧
      (Effect.notifyMaxConn ∈ (conn_wait_loop cfg (w :: rest) st2).2.1 ↔
        conn_wait_pred cfg (w.interim st2) = true)) := by
  constructor
  · unfold size_wait_loop
    rw [hfull]
    simp only [Bool.false_eq_true, if_false, hto]
    constructor
    · rfl
    · cases hpred : lt_opt (w.interim st).requests cfg.max_pool_size <;>
        cases hen : cfg.enabled_for_cmap <;>
          simp [timeout_effects, hen]
  · intro st2 hfull2
    unfold conn_wait_loop
    rw [hfull2]
    simp only [Bool.false_eq_true, if_false, hto]
    constructor
    · rfl
    · cases hpred : conn_wait_pred cfg (w.interim st2) <;>
        cases hen : cfg.enabled_for_cmap <;>
          simp [timeout_effects, hen]

/-- Configuration for the timeout scenarios: one-connection pool with a
wait-queue timeout configured. -/
def cfg8 : PoolOpts :=
  { cfgC1 with max_pool_size := some 1, wait_queue_timeout := some 5 }

/-- A full pool (`requests = max_pool_size = 1`). -/
def st8 : PoolSt := { stReady with requests := 1 }

/-- A wait outcome that times out after another thread released the
admission slot (`requests` back to 0). -/
def w8 : WaitOutcome := { interim := fun s => { s with requests := 0 }, woken := false }

/-- A wait outcome that times out with no interleaved state change. -/
def wIdle : WaitOutcome := { interim := fun s => s, woken := false }

/-- Witness for `timeout_notify_iff_pred`: a timeout on the full pool
`st8` raises wait-queue-timeout, and since a sibling freed the slot
during the wait, the timed-out waiter passes the notification on. -/
theorem timeout_notify_iff_pred_witness :
    lt_opt st8.requests cfg8.max_pool_size = false ∧
    eff_woken cfg8 w8 = false ∧
    (size_wait_loop cfg8 [w8] st8).2.2 = some GetSockErr.wait_queue_timeout ∧
    Effect.notifySize ∈ (size_wait_loop cfg8 [w8] st8).2.1 := by
  have h := timeout_notify_iff_pred cfg8 st8 w8 [] (by decide) (by decide)
  exact ⟨by decide, by decide, h.1.1, h.1.2.mpr (by decide)⟩

/-- Checkout environment whose single admission wait times out with no
interleaved state change. -/
def env8 : GetSockEnv :=
  { curpid := 41, now := 0, size_waits := [wIdle], conn_waits := [],
    connect_out := .run true true, probes := [], auth_ok := true, fuel := 1 }

/-- C8 counterexample: a checkout on the full pool `st8` times out
(publishing `CheckOutFailed TIMEOUT`) but notifies no sibling on either
condition variable, because the admission predicate is still false at the
timeout — the claim's unconditional "notifies a sibling waiter" is false
as stated. -/
theorem timeout_without_notify_counterexample :
    (Pool.get_socket cfg8 env8 st8).2.2 = Sum.inl GetSockErr.wait_queue_timeout ∧
    Effect.event (.CheckOutFailed .TIMEOUT) ∈ (Pool.get_socket cfg8 env8 st8).2.1 ∧
    Effect.notifySize ∉ (Pool.get_socket cfg8 env8 st8).2.1 ∧
    Effect.notifyMaxConn ∉ (Pool.get_socket cfg8 env8 st8).2.1 := by
  refine ⟨by decide, by decide, by decide, by decide⟩

/-- A quiescent wait environment: no other thread mutates the pool while
the lock is released during the waits. -/
def calm (ws : List WaitOutcome) : Prop := ∀ w ∈ ws, ∀ s, w.interim s = s

/-- With a quiescent environment the admission wait loop returns the state
it was given. -/
theorem size_wait_loop_fst (cfg : PoolOpts) (ws : List WaitOutcome) (st : PoolSt)
    (hcalm : calm ws) : (size_wait_loop cfg ws st).1 = st := by
  induction ws generalizing st with
  | nil =>
    unfold size_wait_loop
    split <;> rfl
  | cons w rest ih =>
    have hw : w.interim st = st := hcalm w (List.mem_cons_self w rest) st
    have hrest : calm rest := fun x hx s => hcalm x (List.mem_cons_of_mem w hx) s
    simp only [size_wait_loop, hw]
    split
    · rfl
    · split
      · rfl
      · split
        · rfl
        · exact ih st hrest

/-- The admission wait loop only fails with the timeout, paused or
fuel-exhaustion errors. -/
theorem size_wait_loop_err (cfg : PoolOpts) (ws : List WaitOutcome) (st : PoolSt) :
    (size_wait_loop cfg ws st).2.2 = none ∨
    (size_wait_loop cfg ws st).2.2 = some .wait_queue_timeout ∨
    (size_wait_loop cfg ws st).2.2 = some .pool_paused ∨
    (size_wait_loop cfg ws st).2.2 = some .out_of_fuel := by
  induction ws generalizing st with
  | nil =>
    unfold size_wait_loop
    split
    · exact Or.inl rfl
    · exact Or.inr (Or.inr (Or.inr rfl))
  | cons w rest ih =>
    simp only [size_wait_loop]
    split
    · exact Or.inl rfl
    · split
      · exact Or.inr (Or.inl rfl)
      · split
        · exact Or.inr (Or.inr (Or.inl rfl))
        · exact ih (w.interim st)

/-- With a quiescent environment the creation-throttle wait loop returns
the state it was given, and its unconsumed wait outcomes remain
quiescent. -/
theorem conn_wait_loop_fst (cfg : PoolOpts) (ws : List WaitOutcome) (st : PoolSt)
    (hcalm : calm ws) :
    (conn_wait_loop cfg ws st).1 = st ∧ calm (conn_wait_loop cfg ws st).2.2.2 := by
  induction ws generalizing st with
  | nil =>
    unfold conn_wait_loop
    split
    · exact ⟨rfl, fun w hw => absurd hw (List.not_mem_nil w)⟩
    · exact ⟨rfl, fun w hw => absurd hw (List.not_mem_nil w)⟩
  | cons w rest ih =>
    have hw : w.interim st = st := hcalm w (List.mem_cons_self w rest) st
    have hrest : calm rest := fun x hx s => hcalm x (List.mem_cons_of_mem w hx) s
    simp only [conn_wait_loop, hw]
    split
    · exact ⟨rfl, hcalm⟩
    · split
      · exact ⟨rfl, hrest⟩
      · split
        · exact ⟨rfl, hrest⟩
        · exact ih st hrest

/-- `Pool.connect` leaves every pool counter, the deque, the state, the
generation and the pid unchanged (it only allocates the connection id and
may record the handshake writable flag). -/
theorem connect_fields (cfg : PoolOpts) (now : Nat) (out : ConnectOutcome)
    (st : PoolSt) :
    (Pool.connect cfg now out st).1.requests = st.requests ∧
    (Pool.connect cfg now out st).1.active_sockets = st.active_sockets ∧
    (Pool.connect cfg now out st).1.operation_count = st.operation_count ∧
    (Pool.connect cfg now out st).1.pending = st.pending ∧
    (Pool.connect cfg now out st).1.waiters = st.waiters ∧
    (Pool.connect cfg now out st).1.sockets = st.sockets ∧
    (Pool.connect cfg now out st).1.state = st.state ∧
    (Pool.connect cfg now out st).1.generation = st.generation ∧
    (Pool.connect cfg now out st).1.pid = st.pid := by
  unfold Pool.connect
  cases out with
  | dialFail => exact ⟨rfl, rfl, rfl, rfl, rfl, rfl, rfl, rfl, rfl⟩
  | run w authOk =>
    cases hh : cfg.handshake <;> cases authOk <;>
      exact ⟨rfl, rfl, rfl, rfl, rfl, rfl, rfl, rfl, rfl⟩

/-- With a quiescent environment the creation loop preserves all the
pool-wide counters: each iteration either pops from the deque, or
balances its `pending` reservation in the finally block. -/
theorem creation_loop_counters (cfg : PoolOpts) (now : Nat) (co : ConnectOutcome)
    (fuel : Nat) :
    ∀ (cws : List WaitOutcome) (probes : List Bool) (st : PoolSt), calm cws →
    (creation_loop cfg now co fuel cws probes st).1.requests = st.requests ∧
    (creation_loop cfg now co fuel cws probes st).1.active_sockets = st.active_sockets ∧
    (creation_loop cfg now co fuel cws probes st).1.operation_count = st.operation_count ∧
    (creation_loop cfg now co fuel cws probes st).1.pending = st.pending ∧
    (creation_loop cfg now co fuel cws probes st).1.waiters = st.waiters := by
  induction fuel with
  | zero =>
    intro cws probes st hcalm
    exact ⟨rfl, rfl, rfl, rfl, rfl⟩
  | succ n ih =>
    intro cws probes st hcalm
    have hcw := conn_wait_loop_fst cfg cws st hcalm
    simp only [creation_loop]
    split
    · exact ⟨rfl, rfl, rfl, rfl, rfl⟩
    · split
      · next e heq =>
        rw [hcw.1]
        exact ⟨rfl, rfl, rfl, rfl, rfl⟩
      · next heq =>
        split
        · next si restSocks hsocks =>
          split
          · next hper =>
            have ih2 := ih (conn_wait_loop cfg cws st).2.2.2 probes.tail
              { (conn_wait_loop cfg cws st).1 with sockets := restSocks } hcw.2
            rw [hcw.1] at ih2 ⊢
            exact ih2
          · next hper =>
            rw [hcw.1]
            exact ⟨rfl, rfl, rfl, rfl, rfl⟩
        · next hsocks =>
          have hc := connect_fields cfg now co
            { (conn_wait_loop cfg cws st).1 with pending := (conn_wait_loop cfg cws st).1.pending + 1 }
          split
          · rw [hc.1, hc.2.1, hc.2.2.1, hc.2.2.2.1, hc.2.2.2.2.1, hcw.1]
            refine ⟨rfl, rfl, rfl, ?_, rfl⟩
            simp
          · rw [hc.1, hc.2.1, hc.2.2.1, hc.2.2.2.1, hc.2.2.2.2.1, hcw.1]
            refine ⟨rfl, rfl, rfl, ?_, rfl⟩
            simp

/-- When the admission stage fails (with a quiescent environment) it leaves
every counter as it found it — `waiters` was bracketed up and back down —
and its failure is never the connect or auth failure. -/
theorem admission_err_fields (cfg : PoolOpts) (ws : List WaitOutcome) (st : PoolSt)
    (hcalm : calm ws) (e : GetSockErr)
    (h : (Pool.admission cfg ws st).2.2 = some e) :
    (Pool.admission cfg ws st).1.requests = st.requests ∧
    (Pool.admission cfg ws st).1.active_sockets = st.active_sockets ∧
    (Pool.admission cfg ws st).1.operation_count = st.operation_count ∧
    (Pool.admission cfg ws st).1.pending = st.pending ∧
    (Pool.admission cfg ws st).1.waiters = st.waiters ∧
    e ≠ GetSockErr.connect_failed ∧ e ≠ GetSockErr.auth_failed := by
  have hfst := size_wait_loop_fst cfg ws { st with waiters := st.waiters + 1 } hcalm
  have hcls := size_wait_loop_err cfg ws { st with waiters := st.waiters + 1 }
  by_cases hready : st.state ≠ PState.READY
  · simp only [Pool.admission, if_pos hready] at h ⊢
    rcases Option.some.inj h with rfl
    decide
  · by_cases hw : ge_opt st.waiters cfg.max_waiters = true
    · simp only [Pool.admission, if_neg hready, hw, if_true] at h ⊢
      rcases Option.some.inj h with rfl
      decide
    · simp only [Pool.admission, if_neg hready, hw, Bool.false_eq_true, if_false] at h ⊢
      rcases heq : (size_wait_loop cfg ws { st with waiters := st.waiters + 1 }).2.2
        with _ | e1
      · simp only [heq] at h
        exact Option.noConfusion h
      · rw [heq] at hcls
        simp only [heq] at h ⊢
        rcases Option.some.inj h with rfl
        simp only [hfst]
        refine ⟨by simp, by simp, by simp, by simp, by simp, ?_, ?_⟩
        · rcases hcls with hc | hc | hc | hc <;>
            first
              | (exact Option.noConfusion hc)
              | (rcases Option.some.inj hc with rfl; intro hF; cases hF)
        · rcases hcls with hc | hc | hc | hc <;>
            first
              | (exact Option.noConfusion hc)
              | (rcases Option.some.inj hc with rfl; intro hF; cases hF)

/-- When the admission stage succeeds (with a quiescent environment) its
only counter change is `requests += 1`; the rest of the pool state is
untouched. -/
theorem admission_ok_fields (cfg : PoolOpts) (ws : List WaitOutcome) (st : PoolSt)
    (hcalm : calm ws)
    (h : (Pool.admission cfg ws st).2.2 = none) :
    (Pool.admission cfg ws st).1.requests = st.requests + 1 ∧
    (Pool.admission cfg ws st).1.active_sockets = st.active_sockets ∧
    (Pool.admission cfg ws st).1.operation_count = st.operation_count ∧
    (Pool.admission cfg ws st).1.pending = st.pending ∧
    (Pool.admission cfg ws st).1.waiters = st.waiters ∧
    (Pool.admission cfg ws st).1.state = st.state ∧
    (Pool.admission cfg ws st).1.sockets = st.sockets ∧
    (Pool.admission cfg ws st).1.pid = st.pid ∧
    (Pool.admission cfg ws st).1.generation = st.generation ∧
    (Pool.admission cfg ws st).1.next_connection_id = st.next_connection_id ∧
    (Pool.admission cfg ws st).1.is_writable = st.is_writable := by
  have hfst := size_wait_loop_fst cfg ws { st with waiters := st.waiters + 1 } hcalm
  by_cases hready : st.state ≠ PState.READY
  · simp only [Pool.admission, if_pos hready] at h
    cases h
  · by_cases hw : ge_opt st.waiters cfg.max_waiters = true
    · simp only [Pool.admission, if_neg hready, hw, if_true] at h
      cases h
    · simp only [Pool.admission, if_neg hready, hw, Bool.false_eq_true, if_false] at h ⊢
      rcases heq : (size_wait_loop cfg ws { st with waiters := st.waiters + 1 }).2.2
        with _ | e1
      · simp only [heq] at h ⊢
        simp only [hfst]
        refine ⟨by simp, by simp, by simp, by simp, by simp, by simp, by simp, by simp, by simp, by simp, by simp⟩
      · simp only [heq] at h
        exact Option.noConfusion h

/-- C2 amended: for every checkout that fails after `operation_count` has
been incremented (any failure other than the pool-closed check, in a
quiescent environment without pid drift), the pool unwinds `requests`,
`active_sockets`, `pending` and `waiters` back to their pre-checkout
values, and on post-admission failures (connect or auth failure) notifies
the admission condition variable — but `operation_count` is NOT unwound:
it remains one above its pre-checkout value until the socket would have
been checked in. -/
theorem checkout_failure_unwind (cfg : PoolOpts) (env : GetSockEnv) (st : PoolSt)
    (hpid : st.pid = env.curpid)
    (hc1 : calm env.size_waits) (hc2 : calm env.conn_waits) (e : GetSockErr)
    (hrun : (Pool.get_socket cfg env st).2.2 = Sum.inl e)
    (hne : e ≠ GetSockErr.pool_closed) :
    (Pool.get_socket cfg env st).1.operation_count = st.operation_count + 1 ∧
    (Pool.get_socket cfg env st).1.requests = st.requests ∧
    (Pool.get_socket cfg env st).1.active_sockets = st.active_sockets ∧
    (Pool.get_socket cfg env st).1.pending = st.pending ∧
    (Pool.get_socket cfg env st).1.waiters = st.waiters ∧
    ((e = GetSockErr.connect_failed ∨ e = GetSockErr.auth_failed) →
      Effect.notifySize ∈ (Pool.get_socket cfg env st).2.1) := by
  have hpidF : ¬ st.pid ≠ env.curpid := fun hcon => hcon hpid
  by_cases hcl : st.state = PState.CLOSED
  · exfalso
    apply hne
    simp only [Pool.get_socket, if_neg hpidF, if_pos hcl] at hrun
    first
      | exact (Sum.inl.inj hrun).symm
      | exact hrun.symm
  · simp only [Pool.get_socket, if_neg hpidF, if_neg hcl] at hrun ⊢
    rcases herr : (Pool.admission cfg env.size_waits
        { st with operation_count := st.operation_count + 1 }).2.2 with _ | e1
    · -- admission succeeded; failure is in the creation loop or auth
      have hAok := admission_ok_fields cfg env.size_waits
        { st with operation_count := st.operation_count + 1 } hc1 herr
      simp only [herr] at hrun ⊢
      have hCL := creation_loop_counters cfg env.now env.connect_out env.fuel
        env.conn_waits env.probes
        { (Pool.admission cfg env.size_waits
            { st with operation_count := st.operation_count + 1 }).1 with
          active_sockets :=
            (Pool.admission cfg env.size_waits
              { st with operation_count := st.operation_count + 1 }).1.active_sockets + 1 }
        hc2
      rcases hres : (creation_loop cfg env.now env.connect_out env.fuel
          env.conn_waits env.probes
          { (Pool.admission cfg env.size_waits
              { st with operation_count := st.operation_count + 1 }).1 with
            active_sockets :=
              (Pool.admission cfg env.size_waits
                { st with operation_count := st.operation_count + 1 }).1.active_sockets + 1 }).2.2
        with e2 | si
      · simp only [hres] at hrun ⊢
        rcases Sum.inl.inj hrun with rfl
        refine ⟨?_, ?_, ?_, ?_, ?_, ?_⟩
        · rw [hCL.2.2.1]
          dsimp only
          rw [hAok.2.2.1]
        · rw [hCL.1]
          dsimp only
          rw [hAok.1]
          dsimp only
          omega
        · rw [hCL.2.1]
          dsimp only
          rw [hAok.2.1]
          dsimp only
          omega
        · rw [hCL.2.2.2.1]
          dsimp only
          rw [hAok.2.2.2.1]
        · rw [hCL.2.2.2.2]
          dsimp only
          rw [hAok.2.2.2.2.1]
        · intro hor
          simp [List.mem_append]
      · simp only [hres] at hrun ⊢
        by_cases hAuth : (si.check_auth cfg.enabled_for_cmap env.auth_ok).2.2 = true
        · rw [if_pos hAuth] at hrun
          cases hrun
        · rw [if_neg hAuth] at hrun ⊢
          rcases Sum.inl.inj hrun with rfl
          refine ⟨?_, ?_, ?_, ?_, ?_, ?_⟩
          · rw [hCL.2.2.1]
            dsimp only
            rw [hAok.2.2.1]
          · rw [hCL.1]
            dsimp only
            rw [hAok.1]
            dsimp only
            omega
          · rw [hCL.2.1]
            dsimp only
            rw [hAok.2.1]
            dsimp only
            omega
          · rw [hCL.2.2.2.1]
            dsimp only
            rw [hAok.2.2.2.1]
          · rw [hCL.2.2.2.2]
            dsimp only
            rw [hAok.2.2.2.2.1]
          · intro hor
            simp [List.mem_append]
    · -- admission failed
      have hE := admission_err_fields cfg env.size_waits
        { st with operation_count := st.operation_count + 1 } hc1 e1 herr
      simp only [herr] at hrun ⊢
      rcases Sum.inl.inj hrun with rfl
      refine ⟨hE.2.2.1, hE.1, hE.2.1, hE.2.2.2.1, hE.2.2.2.2.1, ?_⟩
      intro hor
      rcases hor with h | h
      · exact absurd h hE.2.2.2.2.2.1
      · exact absurd h hE.2.2.2.2.2.2

/-- A PAUSED pool with all counters at rest. -/
def stPaused : PoolSt := { stReady with state := .PAUSED }

/-- Environment for a checkout on the paused pool (matching pid, no
waits). -/
def envP : GetSockEnv :=
  { curpid := 41, now := 0, size_waits := [], conn_waits := [],
    connect_out := .dialFail, probes := [], auth_ok := true, fuel := 1 }

/-- C2 counterexample: a checkout on a PAUSED pool fails after
`operation_count` was incremented (step 3), yet `operation_count` is left
one above its pre-checkout value and the admission condition variable is
not notified — the counters do not show a net-zero delta, so the claim is
false as stated. -/
theorem checkout_failure_leaks_counterexample :
    (Pool.get_socket cfgC1 envP stPaused).2.2 = Sum.inl GetSockErr.pool_paused ∧
    (Pool.get_socket cfgC1 envP stPaused).1.operation_count =
      stPaused.operation_count + 1 ∧
    (Pool.get_socket cfgC1 envP stPaused).1.operation_count ≠
      stPaused.operation_count ∧
    Effect.notifySize ∉ (Pool.get_socket cfgC1 envP stPaused).2.1 := by
  refine ⟨by decide, by decide, by decide, by decide⟩

/-- Witness for `checkout_failure_unwind` on the concrete paused-pool
checkout. -/
theorem checkout_failure_unwind_witness :
    (Pool.get_socket cfgC1 envP stPaused).2.2 = Sum.inl GetSockErr.pool_paused ∧
    (Pool.get_socket cfgC1 envP stPaused).1.requests = stPaused.requests ∧
    (Pool.get_socket cfgC1 envP stPaused).1.active_sockets = stPaused.active_sockets ∧
    (Pool.get_socket cfgC1 envP stPaused).1.operation_count =
      stPaused.operation_count + 1 := by
  have hcalm : calm ([] : List WaitOutcome) := fun w hw => absurd hw (List.not_mem_nil w)
  have h := checkout_failure_unwind cfgC1 envP stPaused rfl hcalm hcalm
    GetSockErr.pool_paused (by decide) (by decide)
  exact ⟨by decide, h.2.1, h.2.2.1, h.1⟩

/-- Failure modes of `SocketInfo.send_message`. -/
inductive SendErr
  | documentTooLarge
  | connectionFailure
deriving DecidableEq, Repr

/-- `SocketInfo.send_message` (pool.py 691-706) with
`SocketInfo._raise_connection_failure` (pool.py 860-879).  `send_ok` is
the outcome of the environment's `sock.sendall`.  Returns the updated
socket, published events, whether `sendall` was invoked (bytes written to
the socket), and the failure if any.  The document-size guard runs before
any send; a send error closes the socket with reason ERROR before
re-raising as a connection failure. -/
def SocketInfo.send_message (si : SocketInfo) (enabled : Bool)
    (max_doc_size : Nat) (send_ok : Bool) :
    SocketInfo × List CMAPEvent × Bool × Option SendErr :=
  let too_large :=
    match si.max_bson_size with
    | some m => decide (max_doc_size > m)
    | none => false
  if too_large then (si, [], false, some .documentTooLarge)
  else if send_ok then (si, [], true, none)
  else
    let rc := close_socket enabled si (some .ERROR)
    (rc.1, rc.2, true, some .connectionFailure)

/-- C10: sending a message whose largest document exceeds the handshaked
`max_bson_size` fails with the document-too-large error before any bytes
are written; the connection stays open and unchanged.  Only an error from
the actual socket send closes the connection (with reason ERROR); a
successful send also leaves it unchanged. -/
theorem send_message_too_large (si : SocketInfo) (enabled : Bool)
    (max_doc_size : Nat) (send_ok : Bool) (m : Nat)
    (hopen : si.closed = false) (hbson : si.max_bson_size = some m) :
    (max_doc_size > m →
      si.send_message enabled max_doc_size send_ok =
        (si, [], false, some .documentTooLarge) ∧
      (si.send_message enabled max_doc_size send_ok).1.closed = false) ∧
    (max_doc_size ≤ m → send_ok = true →
      si.send_message enabled max_doc_size send_ok = (si, [], true, none)) ∧
    (max_doc_size ≤ m → send_ok = false →
      (si.send_message enabled max_doc_size send_ok).1.closed = true ∧
      (si.send_message enabled max_doc_size send_ok).2.2.2 =
        some SendErr.connectionFailure) := by
  refine ⟨?_, ?_, ?_⟩
  · intro hgt
    have h1 : si.send_message enabled max_doc_size send_ok =
        (si, [], false, some .documentTooLarge) := by
      unfold SocketInfo.send_message
      rw [hbson]
      simp [hgt]
    exact ⟨h1, by rw [h1]; exact hopen⟩
  · intro hle hok
    unfold SocketInfo.send_message
    rw [hbson, hok]
    simp
    omega
  · intro hle hfail
    unfold SocketInfo.send_message
    rw [hbson, hfail]
    have hng : ¬ max_doc_size > m := by omega
    simp [hng, close_socket, hopen]

/-- Witness for `send_message_too_large`: `siA` (open, 16 MiB limit) with
a 20 MiB document fails with document-too-large, writes nothing, and
stays open. -/
theorem send_message_too_large_witness :
    siA.closed = false ∧ siA.max_bson_size = some MAX_BSON_SIZE ∧
    siA.send_message true 20000000 true =
      (siA, [], false, some .documentTooLarge) ∧
    (siA.send_message true 20000000 true).1.closed = false := by
  have h := (send_message_too_large siA true 20000000 true MAX_BSON_SIZE rfl rfl).1
    (by decide)
  exact ⟨rfl, rfl, h.1, h.2⟩

/-!
Counter-accounting transition system for the concurrent pool.

Each thread running `Pool._get_socket` / `Pool.return_socket` or
`Pool.remove_stale_sockets` is abstracted to the phase it has reached
between two lock-protected regions; the pool counters are the sums of
the per-phase contributions, exactly as the code increments and
decrements them inside those regions.  Every `GStep` constructor is one
atomic (lock-protected) region of pool.py; its guard is the condition
the code checks inside that region.  The `max_waiters` check is omitted
(this only adds interleavings).  Pid drift (fork) is outside this model.
-/

/-- The phase a thread has reached.  Checkout phases (pool.py 1304-1439):
`start` before the `operation_count` increment (1320), `counted` after
it, `admitted` after `requests += 1` (1347), `incActive` after
`active_sockets += 1` (1355) while holding no socket inside the creation
loop, `creating` after `_pending += 1` (1378) while dialing off-lock,
`holding` while holding a checked-out socket, `failedOp` after the error
unwind (1395-1399) which releases `requests`/`active_sockets` but not
`operation_count`, `finished` after `return_socket` (1435-1439).
Maintenance phases (pool.py 1176-1211): `mstart` before the gate,
`mrequested` after `requests += 1` (1184), `mcreating` after
`_pending += 1` (1192) while dialing, `mpendingDone` after the
`_pending -= 1` finally (1206), `mfinished` after `requests -= 1`
(1210). -/
inductive Phase
  | start
  | counted
  | admitted
  | incActive
  | creating
  | holding
  | failedOp
  | finished
  | mstart
  | mrequested
  | mcreating
  | mpendingDone
  | mfinished
deriving DecidableEq, Repr

/-- Contribution of a thread in this phase to `Pool.requests`. -/
def phaseRequests : Phase → Nat
  | .admitted | .incActive | .creating | .holding => 1
  | .mrequested | .mcreating | .mpendingDone => 1
  | _ => 0

/-- Contribution of a thread in this phase to `Pool.active_sockets`. -/
def phaseActive : Phase → Nat
  | .incActive | .creating | .holding => 1
  | _ => 0

/-- Contribution of a thread in this phase to `Pool._pending`. -/
def phasePending : Phase → Nat
  | .creating | .mcreating => 1
  | _ => 0

/-- Global state of the concurrent system: pool state, generation, size of
the idle deque, and the phase of every thread. -/
structure GState where
  pstate : PState
  generation : Nat
  idle : Nat
  threads : List Phase
deriving DecidableEq, Repr

/-- The value of `Pool.requests`, derived from the thread phases. -/
def requestsOf (s : GState) : Nat := (s.threads.map phaseRequests).sum

/-- The value of `Pool.active_sockets`, derived from the thread phases. -/
def activeOf (s : GState) : Nat := (s.threads.map phaseActive).sum

/-- The value of `Pool._pending`, derived from the thread phases. -/
def pendingOf (s : GState) : Nat := (s.threads.map phasePending).sum

/-- `x < bound` on naturals, `none` meaning infinity. -/
def lt_optN (x : Nat) : Option Nat → Bool
  | none => true
  | some n => decide (x < n)

/-- One atomic lock-protected region of pool.py, by one thread (selected
via `threads = l1 ++ phase :: l2`) or a state-machine operation.  The
guards are exactly the conditions the code checks inside that region. -/
inductive GStep (cfg : PoolOpts) : GState → GState → Prop
  | count (s : GState) (l1 l2 : List Phase)
      (hth : s.threads = l1 ++ Phase.start :: l2)
      (hst : s.pstate ≠ PState.CLOSED) :
      GStep cfg s { s with threads := l1 ++ Phase.counted :: l2 }
  | admitOk (s : GState) (l1 l2 : List Phase)
      (hth : s.threads = l1 ++ Phase.counted :: l2)
      (hready : s.pstate = PState.READY)
      (hroom : lt_optN (requestsOf s) cfg.max_pool_size = true) :
      GStep cfg s { s with threads := l1 ++ Phase.admitted :: l2 }
  | admitFail (s : GState) (l1 l2 : List Phase)
      (hth : s.threads = l1 ++ Phase.counted :: l2) :
      GStep cfg s { s with threads := l1 ++ Phase.failedOp :: l2 }
  | incActive (s : GState) (l1 l2 : List Phase)
      (hth : s.threads = l1 ++ Phase.admitted :: l2) :
      GStep cfg s { s with threads := l1 ++ Phase.incActive :: l2 }
  | popSock (s : GState) (l1 l2 : List Phase)
      (hth : s.threads = l1 ++ Phase.incActive :: l2)
      (hidle : 0 < s.idle) :
      GStep cfg s { s with idle := s.idle - 1, threads := l1 ++ Phase.holding :: l2 }
  | perish (s : GState) (l1 l2 : List Phase)
      (hth : s.threads = l1 ++ Phase.holding :: l2) :
      GStep cfg s { s with threads := l1 ++ Phase.incActive :: l2 }
  | createBegin (s : GState) (l1 l2 : List Phase)
      (hth : s.threads = l1 ++ Phase.incActive :: l2)
      (hempty : s.idle = 0)
      (hconn : pendingOf s < cfg.max_connecting) :
      GStep cfg s { s with threads := l1 ++ Phase.creating :: l2 }
  | createOk (s : GState) (l1 l2 : List Phase)
      (hth : s.threads = l1 ++ Phase.creating :: l2) :
      GStep cfg s { s with threads := l1 ++ Phase.holding :: l2 }
  | createFail (s : GState) (l1 l2 : List Phase)
      (hth : s.threads = l1 ++ Phase.creating :: l2) :
      GStep cfg s { s with threads := l1 ++ Phase.failedOp :: l2 }
  | authFail (s : GState) (l1 l2 : List Phase)
      (hth : s.threads = l1 ++ Phase.holding :: l2) :
      GStep cfg s { s with threads := l1 ++ Phase.failedOp :: l2 }
  | checkinRequeue (s : GState) (l1 l2 : List Phase)
      (hth : s.threads = l1 ++ Phase.holding :: l2) :
      GStep cfg s { s with idle := s.idle + 1, threads := l1 ++ Phase.finished :: l2 }
  | checkinDrop (s : GState) (l1 l2 : List Phase)
      (hth : s.threads = l1 ++ Phase.holding :: l2) :
      GStep cfg s { s with threads := l1 ++ Phase.finished :: l2 }
  | mRequest (s : GState) (l1 l2 : List Phase)
      (hth : s.threads = l1 ++ Phase.mstart :: l2)
      (hready : s.pstate = PState.READY)
      (hbelow : s.idle + activeOf s < cfg.min_pool_size)
      (hreq : requestsOf s < cfg.min_pool_size) :
      GStep cfg s { s with threads := l1 ++ Phase.mrequested :: l2 }
  | mAbort (s : GState) (l1 l2 : List Phase)
      (hth : s.threads = l1 ++ Phase.mrequested :: l2)
      (hconn : cfg.max_connecting ≤ pendingOf s) :
      GStep cfg s { s with threads := l1 ++ Phase.mfinished :: l2 }
  | mCreate (s : GState) (l1 l2 : List Phase)
      (hth : s.threads = l1 ++ Phase.mrequested :: l2)
      (hconn : pendingOf s < cfg.max_connecting) :
      GStep cfg s { s with threads := l1 ++ Phase.mcreating :: l2 }
  | mAppend (s : GState) (l1 l2 : List Phase)
      (hth : s.threads = l1 ++ Phase.mcreating :: l2) :
      GStep cfg s { s with idle := s.idle + 1, threads := l1 ++ Phase.mpendingDone :: l2 }
  | mDrop (s : GState) (l1 l2 : List Phase)
      (hth : s.threads = l1 ++ Phase.mcreating :: l2) :
      GStep cfg s { s with threads := l1 ++ Phase.mpendingDone :: l2 }
  | mFinish (s : GState) (l1 l2 : List Phase)
      (hth : s.threads = l1 ++ Phase.mpendingDone :: l2) :
      GStep cfg s { s with threads := l1 ++ Phase.mfinished :: l2 }
  | pruneIdle (s : GState) (hidle : 0 < s.idle) :
      GStep cfg s { s with idle := s.idle - 1 }
  | goReady (s : GState) :
      GStep cfg s { s with pstate := PState.READY }
  | goPause (s : GState) (hst : s.pstate ≠ PState.CLOSED) :
      GStep cfg s { s with pstate := PState.PAUSED, generation := s.generation + 1,
                           idle := 0 }
  | goClose (s : GState) (hst : s.pstate ≠ PState.CLOSED) :
      GStep cfg s { s with pstate := PState.CLOSED, generation := s.generation + 1,
                           idle := 0 }

/-- Many-step reachability of the transition system. -/
def Reaches (cfg : PoolOpts) : GState → GState → Prop :=
  Relation.ReflTransGen (GStep cfg)

/-- Splitting a phase-contribution sum around the stepping thread. -/
theorem sum_map_split (f : Phase → Nat) (l1 l2 : List Phase) (p : Phase) :
    ((l1 ++ p :: l2).map f).sum = (l1.map f).sum + f p + (l2.map f).sum := by
  simp [List.sum_append]
  omega

/-- A thread transition that does not raise its contribution cannot raise
the derived counter. -/
theorem sum_step_le (f : Phase → Nat) (l1 l2 : List Phase) (p p' : Phase)
    (h : f p' ≤ f p) :
    ((l1 ++ p' :: l2).map f).sum ≤ ((l1 ++ p :: l2).map f).sum := by
  rw [sum_map_split, sum_map_split]
  omega

/-- Every thread contributing to `active_sockets` also contributes to
`requests`. -/
theorem phase_active_le_requests (p : Phase) : phaseActive p ≤ phaseRequests p := by
  cases p <;> decide

/-- `active_sockets ≤ requests` holds in every state of the system. -/
theorem active_le_requests (s : GState) : activeOf s ≤ requestsOf s := by
  unfold activeOf requestsOf
  induction s.threads with
  | nil => simp
  | cons p l ih =>
    simp only [List.map_cons, List.sum_cons]
    have := phase_active_le_requests p
    omega

/-- Every atomic region preserves the two guarded bounds
`requests ≤ max_pool_size` and `pending ≤ max_connecting` (assuming
`min_pool_size ≤ max_pool_size`, which the driver validates at
configuration time): the only regions that raise `requests` are the
admission (guarded by `requests < max_pool_size`) and the maintenance
gate (guarded by `requests < min_pool_size`), and the only regions that
raise `_pending` are guarded by `_pending < max_connecting`. -/
theorem gstep_preserves_bounds (cfg : PoolOpts) (M : Nat)
    (hM : cfg.max_pool_size = some M) (hmin : cfg.min_pool_size ≤ M)
    (a b : GState) (hstep : GStep cfg a b)
    (hr : requestsOf a ≤ M) (hp : pendingOf a ≤ cfg.max_connecting) :
    requestsOf b ≤ M ∧ pendingOf b ≤ cfg.max_connecting := by
  cases hstep with
  | count l1 l2 hth hst =>
    simp only [requestsOf, pendingOf] at hr hp ⊢
    rw [hth] at hr hp
    exact ⟨le_trans (sum_step_le _ _ _ _ _ (by decide)) hr,
           le_trans (sum_step_le _ _ _ _ _ (by decide)) hp⟩
  | admitOk l1 l2 hth hready hroom =>
    have hroom2 : requestsOf a < M := by
      rw [hM] at hroom
      simpa [lt_optN] using hroom
    simp only [requestsOf, pendingOf] at hr hp hroom2 ⊢
    rw [hth] at hr hp hroom2
    constructor
    · rw [sum_map_split] at hroom2 ⊢
      simp only [phaseRequests] at hroom2 ⊢
      omega
    · exact le_trans (sum_step_le _ _ _ _ _ (by decide)) hp
  | admitFail l1 l2 hth =>
    simp only [requestsOf, pendingOf] at hr hp ⊢
    rw [hth] at hr hp
    exact ⟨le_trans (sum_step_le _ _ _ _ _ (by decide)) hr,
           le_trans (sum_step_le _ _ _ _ _ (by decide)) hp⟩
  | incActive l1 l2 hth =>
    simp only [requestsOf, pendingOf] at hr hp ⊢
    rw [hth] at hr hp
    exact ⟨le_trans (sum_step_le _ _ _ _ _ (by decide)) hr,
           le_trans (sum_step_le _ _ _ _ _ (by decide)) hp⟩
  | popSock l1 l2 hth hidle =>
    simp only [requestsOf, pendingOf] at hr hp ⊢
    rw [hth] at hr hp
    exact ⟨le_trans (sum_step_le _ _ _ _ _ (by decide)) hr,
           le_trans (sum_step_le _ _ _ _ _ (by decide)) hp⟩
  | perish l1 l2 hth =>
    simp only [requestsOf, pendingOf] at hr hp ⊢
    rw [hth] at hr hp
    exact ⟨le_trans (sum_step_le _ _ _ _ _ (by decide)) hr,
           le_trans (sum_step_le _ _ _ _ _ (by decide)) hp⟩
  | createBegin l1 l2 hth hempty hconn =>
    simp only [requestsOf, pendingOf] at hr hp hconn ⊢
    rw [hth] at hr hp hconn
    constructor
    · exact le_trans (sum_step_le _ _ _ _ _ (by decide)) hr
    · rw [sum_map_split] at hconn ⊢
      simp only [phasePending] at hconn ⊢
      omega
  | createOk l1 l2 hth =>
    simp only [requestsOf, pendingOf] at hr hp ⊢
    rw [hth] at hr hp
    exact ⟨le_trans (sum_step_le _ _ _ _ _ (by decide)) hr,
           le_trans (sum_step_le _ _ _ _ _ (by decide)) hp⟩
  | createFail l1 l2 hth =>
    simp only [requestsOf, pendingOf] at hr hp ⊢
    rw [hth] at hr hp
    exact ⟨le_trans (sum_step_le _ _ _ _ _ (by decide)) hr,
           le_trans (sum_step_le _ _ _ _ _ (by decide)) hp⟩
  | authFail l1 l2 hth =>
    simp only [requestsOf, pendingOf] at hr hp ⊢
    rw [hth] at hr hp
    exact ⟨le_trans (sum_step_le _ _ _ _ _ (by decide)) hr,
           le_trans (sum_step_le _ _ _ _ _ (by decide)) hp⟩
  | checkinRequeue l1 l2 hth =>
    simp only [requestsOf, pendingOf] at hr hp ⊢
    rw [hth] at hr hp
    exact ⟨le_trans (sum_step_le _ _ _ _ _ (by decide)) hr,
           le_trans (sum_step_le _ _ _ _ _ (by decide)) hp⟩
  | checkinDrop l1 l2 hth =>
    simp only [requestsOf, pendingOf] at hr hp ⊢
    rw [hth] at hr hp
    exact ⟨le_trans (sum_step_le _ _ _ _ _ (by decide)) hr,
           le_trans (sum_step_le _ _ _ _ _ (by decide)) hp⟩
  | mRequest l1 l2 hth hready hbelow hreq =>
    have hreq2 : requestsOf a < M := lt_of_lt_of_le hreq hmin
    simp only [requestsOf, pendingOf] at hr hp hreq2 ⊢
    rw [hth] at hr hp hreq2
    constructor
    · rw [sum_map_split] at hreq2 ⊢
      simp only [phaseRequests] at hreq2 ⊢
      omega
    · exact le_trans (sum_step_le _ _ _ _ _ (by decide)) hp
  | mAbort l1 l2 hth hconn =>
    simp only [requestsOf, pendingOf] at hr hp ⊢
    rw [hth] at hr hp
    exact ⟨le_trans (sum_step_le _ _ _ _ _ (by decide)) hr,
           le_trans (sum_step_le _ _ _ _ _ (by decide)) hp⟩
  | mCreate l1 l2 hth hconn =>
    simp only [requestsOf, pendingOf] at hr hp hconn ⊢
    rw [hth] at hr hp hconn
    constructor
    · exact le_trans (sum_step_le _ _ _ _ _ (by decide)) hr
    · rw [sum_map_split] at hconn ⊢
      simp only [phasePending] at hconn ⊢
      omega
  | mAppend l1 l2 hth =>
    simp only [requestsOf, pendingOf] at hr hp ⊢
    rw [hth] at hr hp
    exact ⟨le_trans (sum_step_le _ _ _ _ _ (by decide)) hr,
           le_trans (sum_step_le _ _ _ _ _ (by decide)) hp⟩
  | mDrop l1 l2 hth =>
    simp only [requestsOf, pendingOf] at hr hp ⊢
    rw [hth] at hr hp
    exact ⟨le_trans (sum_step_le _ _ _ _ _ (by decide)) hr,
           le_trans (sum_step_le _ _ _ _ _ (by decide)) hp⟩
  | mFinish l1 l2 hth =>
    simp only [requestsOf, pendingOf] at hr hp ⊢
    rw [hth] at hr hp
    exact ⟨le_trans (sum_step_le _ _ _ _ _ (by decide)) hr,
           le_trans (sum_step_le _ _ _ _ _ (by decide)) hp⟩
  | pruneIdle hidle => exact ⟨hr, hp⟩
  | goReady => exact ⟨hr, hp⟩
  | goPause hst => exact ⟨hr, hp⟩
  | goClose hst => exact ⟨hr, hp⟩

/-- C4 amended: in every state reachable by checkout, checkin, maintenance
and state-machine steps (from a start state satisfying the bounds, with
`max_pool_size` finite and `min_pool_size ≤ max_pool_size`):
`requests ≤ maxPoolSize`, `pendingCreates ≤ maxConnecting`, and hence
`activeCheckouts + pendingCreates ≤ maxPoolSize + maxConnecting`.  The
claimed bound `activeCheckouts + pendingCreates ≤ maxPoolSize` does not
hold (a dialing checkout holds both an `active_sockets` and a `_pending`
unit); what the admission stage actually bounds by `maxPoolSize` is
`requests`. -/
theorem pool_size_bound (cfg : PoolOpts) (M : Nat) (s0 s : GState)
    (hM : cfg.max_pool_size = some M) (hmin : cfg.min_pool_size ≤ M)
    (h0r : requestsOf s0 ≤ M) (h0p : pendingOf s0 ≤ cfg.max_connecting)
    (hreach : Reaches cfg s0 s) :
    requestsOf s ≤ M ∧ pendingOf s ≤ cfg.max_connecting ∧
    activeOf s + pendingOf s ≤ M + cfg.max_connecting := by
  have key : requestsOf s ≤ M ∧ pendingOf s ≤ cfg.max_connecting := by
    induction hreach with
    | refl => exact ⟨h0r, h0p⟩
    | tail hsteps hstep ih =>
      exact gstep_preserves_bounds cfg M hM hmin _ _ hstep ih.1 ih.2
  refine ⟨key.1, key.2, ?_⟩
  have har := active_le_requests s
  have h1 := key.1
  have h2 := key.2
  omega

/-- Configuration with `max_pool_size = 1` (and the default
`max_connecting = 2`, `min_pool_size = 0`). -/
def cfg4 : PoolOpts := { cfgC1 with max_pool_size := some 1 }

/-- Start state: freshly constructed (PAUSED) pool, empty deque, one
checkout thread about to run. -/
def gInit : GState :=
  { pstate := .PAUSED, generation := 0, idle := 0, threads := [.start] }

/-- After `ready()`. -/
def g1 : GState := { gInit with pstate := .READY }

/-- After the thread's `operation_count` increment. -/
def g2 : GState := { g1 with threads := [.counted] }

/-- After admission (`requests += 1`). -/
def g3 : GState := { g1 with threads := [.admitted] }

/-- After `active_sockets += 1`. -/
def g4 : GState := { g1 with threads := [.incActive] }

/-- While dialing: the thread holds both an `active_sockets` unit and a
`_pending` unit, with no lock held. -/
def gBad : GState := { g1 with threads := [.creating] }

/-- The dialing state `gBad` is reachable from the fresh pool in five
steps. -/
theorem gBad_reachable : Reaches cfg4 gInit gBad := by
  have s1 : GStep cfg4 gInit g1 := GStep.goReady gInit
  have s2 : GStep cfg4 g1 g2 := GStep.count g1 [] [] rfl (by decide)
  have s3 : GStep cfg4 g2 g3 := GStep.admitOk g2 [] [] rfl rfl (by decide)
  have s4 : GStep cfg4 g3 g4 := GStep.incActive g3 [] [] rfl
  have s5 : GStep cfg4 g4 gBad := GStep.createBegin g4 [] [] rfl rfl (by decide)
  exact Relation.ReflTransGen.head s1 (Relation.ReflTransGen.head s2
    (Relation.ReflTransGen.head s3 (Relation.ReflTransGen.head s4
      (Relation.ReflTransGen.single s5))))

/-- C4 counterexample: with `max_pool_size = 1` the system reaches a
quiescent state (no lock held, the one thread is dialing off-lock) in
which `active_sockets + _pending = 2 > 1 = maxPoolSize` — a single
checkout thread contributes to both counters while creating a
connection, so `activeCheckouts + pendingCreates ≤ maxPoolSize` is false
as stated. -/
theorem pool_size_claim_counterexample :
    cfg4.max_pool_size = some 1 ∧
    Reaches cfg4 gInit gBad ∧
    activeOf gBad + pendingOf gBad > 1 :=
  ⟨rfl, gBad_reachable, by decide⟩

/-- Witness for `pool_size_bound` at the concrete reachable state
`gBad`. -/
theorem pool_size_bound_witness :
    requestsOf gBad ≤ 1 ∧ pendingOf gBad ≤ cfg4.max_connecting ∧
    activeOf gBad + pendingOf gBad ≤ 1 + cfg4.max_connecting :=
  pool_size_bound cfg4 1 gInit gBad rfl (by decide) (by decide) (by decide)
    gBad_reachable

end PyMongoPool
